import Mathlib

/-!
Shallow embedding of the `natura` Rust crate (damped harmonic oscillator
"spring" and constant-acceleration projectile).

Floating-point `f64` arithmetic of the source is modelled as exact real
arithmetic over `ℝ` (the idealisation the specification's formulas are written
in); the integer arithmetic of the frame-rate helper `fps` is modelled exactly
over `ℕ`/`ℚ`, with the Rust panic on integer division by zero modelled as
`Option.none`.

Source correspondence: the Rust parameter `angular_frequency` is written `ω`
here, `damping_ratio` is written `ζ`, and `delta_time` is written `Δt`.
-/

namespace Natura

noncomputable section

/-- The constant `EPSILON` from src/natura/src/spring.rs: `0.00000001`. -/
def EPSILON : ℝ := 0.00000001

/-- The four cached spring coefficients (struct `Spring` in spring.rs). -/
structure Spring where
  pos_pos_coef : ℝ
  pos_vel_coef : ℝ
  vel_pos_coef : ℝ
  vel_vel_coef : ℝ

/-- The local `alpha` of `Spring::calculate_under_damped`:
`angular_frequency * (1.0 - damping_ratio * damping_ratio).sqrt()`.
The under-damped branch divides by this quantity (via `inv_alpha`). -/
def alpha (ω ζ : ℝ) : ℝ := ω * Real.sqrt (1 - ζ * ζ)

/-- The local `zb` of `Spring::calculate_over_damped`:
`angular_frequency * (damping_ratio * damping_ratio - 1.0).sqrt()`.
The over-damped branch divides by `2 * zb` (via `inv_two_zb`). -/
def zb (ω ζ : ℝ) : ℝ := ω * Real.sqrt (ζ * ζ - 1)

/-- `Spring::calculate_critically_damped` (spring.rs): sets all four
coefficients from `exp_term = exp(-ω·Δt)`, `time_exp = Δt·exp_term`,
`time_exp_freq = time_exp·ω`. Modelled as returning the written `Spring`. -/
def calculate_critically_damped (Δt ω : ℝ) : Spring :=
  let exp_term := Real.exp (-ω * Δt)
  let time_exp := Δt * exp_term
  let time_exp_freq := time_exp * ω
  { pos_pos_coef := time_exp_freq + exp_term
    pos_vel_coef := time_exp
    vel_pos_coef := -ω * time_exp_freq
    vel_vel_coef := -time_exp_freq + exp_term }

/-- `Spring::calculate_under_damped` (spring.rs), with `alpha` the named
divisor defined above. -/
def calculate_under_damped (Δt ω ζ : ℝ) : Spring :=
  let omega_zeta := ω * ζ
  let a := alpha ω ζ
  let exp_term := Real.exp (-omega_zeta * Δt)
  let cos_term := Real.cos (a * Δt)
  let sin_term := Real.sin (a * Δt)
  let inv_alpha := 1 / a
  let exp_sin := exp_term * sin_term
  let exp_cos := exp_term * cos_term
  let exp_omega_zeta_sin_over_alpha := exp_term * omega_zeta * sin_term * inv_alpha
  { pos_pos_coef := exp_cos + exp_omega_zeta_sin_over_alpha
    pos_vel_coef := exp_sin * inv_alpha
    vel_pos_coef := -exp_sin * a - omega_zeta * exp_omega_zeta_sin_over_alpha
    vel_vel_coef := exp_cos - exp_omega_zeta_sin_over_alpha }

/-- `Spring::calculate_over_damped` (spring.rs), with `zb` the named
square-root term defined above; the branch divides by `2 * zb`. -/
def calculate_over_damped (Δt ω ζ : ℝ) : Spring :=
  let za := -ω * ζ
  let zb1 := zb ω ζ
  let z1 := za - zb1
  let z2 := za + zb1
  let e1 := Real.exp (z1 * Δt)
  let e2 := Real.exp (z2 * Δt)
  let inv_two_zb := 1 / (2 * zb1)
  let e1_over_two_zb := e1 * inv_two_zb
  let e2_over_two_zb := e2 * inv_two_zb
  let z1e1_over_two_zb := z1 * e1_over_two_zb
  let z2e2_over_two_zb := z2 * e2_over_two_zb
  { pos_pos_coef := e1_over_two_zb * z2 - z2e2_over_two_zb + e2
    pos_vel_coef := -e1_over_two_zb + e2_over_two_zb
    vel_pos_coef := (z1e1_over_two_zb - z2e2_over_two_zb + e2) * z2
    vel_vel_coef := -z1e1_over_two_zb + z2e2_over_two_zb }

/-- `Spring::new` (spring.rs): clamps `angular_frequency` and `damping_ratio`
to be non-negative with `f64::max(0.0, ·)`, returns the identity coefficients
when the clamped frequency is below `EPSILON`, and otherwise dispatches on the
clamped damping ratio compared with `1.0 ± EPSILON`. -/
def Spring.new (Δt ω ζ : ℝ) : Spring :=
  let ωc := max 0 ω
  let ζc := max 0 ζ
  if ωc < EPSILON then
    { pos_pos_coef := 1, pos_vel_coef := 0, vel_pos_coef := 0, vel_vel_coef := 1 }
  else if ζc > 1 + EPSILON then
    calculate_over_damped Δt ωc ζc
  else if ζc < 1 - EPSILON then
    calculate_under_damped Δt ωc ζc
  else
    calculate_critically_damped Δt ωc

/-- `Spring::update` (spring.rs). The Rust method takes `&mut self` but never
writes any field; `&mut` state is modelled by returning the final receiver
alongside the `(new_pos, new_vel)` value the method returns. -/
def Spring.update (s : Spring) (pos vel equilibrium_pos : ℝ) : Spring × ℝ × ℝ :=
  let old_pos := pos - equilibrium_pos
  let old_vel := vel
  let new_pos := old_pos * s.pos_pos_coef + old_vel * s.pos_vel_coef + equilibrium_pos
  let new_vel := old_pos * s.vel_pos_coef + old_vel * s.vel_vel_coef
  (s, new_pos, new_vel)

/-- `Point` (projectile.rs): x, y, z coordinates. -/
structure Point where
  x : ℝ
  y : ℝ
  z : ℝ

/-- `Vector` (projectile.rs): x, y, z components. -/
structure Vector where
  x : ℝ
  y : ℝ
  z : ℝ

/-- `Projectile` (projectile.rs): position, velocity, acceleration and the
fixed `delta_time`. The Rust struct holds `&mut` references to `pos`, `vel`,
`acc`; they are modelled as owned state threaded explicitly. -/
structure Projectile where
  pos : Point
  vel : Vector
  acc : Vector
  delta_time : ℝ

/-- `Projectile::new` (projectile.rs): stores the four inputs. -/
def Projectile.new (Δt : ℝ) (initial_position : Point)
    (initial_velocity initial_acceleration : Vector) : Projectile :=
  { pos := initial_position
    vel := initial_velocity
    acc := initial_acceleration
    delta_time := Δt }

/-- `Projectile::update` (projectile.rs): in source order, each position
component is incremented by the current velocity component times
`delta_time`, and afterwards each velocity component is incremented by the
acceleration component times `delta_time`; the method returns `&self.pos`.
Modelled as returning the mutated state together with the returned position. -/
def Projectile.update (p : Projectile) : Projectile × Point :=
  let pos1 : Point :=
    { x := p.pos.x + p.vel.x * p.delta_time
      y := p.pos.y + p.vel.y * p.delta_time
      z := p.pos.z + p.vel.z * p.delta_time }
  let vel1 : Vector :=
    { x := p.vel.x + p.acc.x * p.delta_time
      y := p.vel.y + p.acc.y * p.delta_time
      z := p.vel.z + p.acc.z * p.delta_time }
  ({ p with pos := pos1, vel := vel1 }, pos1)

/-- `Projectile::position` (projectile.rs): read-only accessor. -/
def Projectile.position (p : Projectile) : Point := p.pos

end

/-- The frame-rate helper `fps` (spring.rs). `Duration::new(0, n as u32)`
builds a duration of `n mod 2^32` NANOSECONDS, so `duration.as_nanos()` is
`n mod 2^32` and `second.as_nanos()` is `10^9`; the u128 quotient
`second / duration` panics when the divisor is zero (modelled as `none`), and
the subsequent `as f64 / 1000000.0 / 1000.0` is modelled as exact division
over `ℚ`. -/
def fps (n : ℕ) : Option ℚ :=
  let duration : ℕ := n % 2 ^ 32
  let second : ℕ := 1000000000
  if duration = 0 then none
  else some ((((second / duration : ℕ) : ℚ) / 1000000) / 1000)

noncomputable section

/-- Written from the specification's words (spec §4.1, "Critical"):
`pos_pos = Δt·ω·e + e`, `pos_vel = Δt·e`, `vel_pos = −ω·Δt·ω·e`,
`vel_vel = −Δt·ω·e + e`, with `e = exp(−ωΔt)`. -/
def specCriticallyDamped (Δt ω : ℝ) : Spring :=
  let e := Real.exp (-ω * Δt)
  { pos_pos_coef := Δt * ω * e + e
    pos_vel_coef := Δt * e
    vel_pos_coef := -ω * Δt * ω * e
    vel_vel_coef := -(Δt * ω * e) + e }

/-- Written from the specification's words (spec §4.1, "Under-damped"):
with `ωζ = ω·ζ`, `α = ω·sqrt(1−ζ²)`, `e = exp(−ωζ·Δt)`, `c = cos(αΔt)`,
`s = sin(αΔt)`: `pos_pos = e·c + e·ωζ·s/α`, `pos_vel = e·s/α`,
`vel_pos = −e·s·α − ωζ·(e·ωζ·s/α)`, `vel_vel = e·c − e·ωζ·s/α`. -/
def specUnderDamped (Δt ω ζ : ℝ) : Spring :=
  let ωζ := ω * ζ
  let α := ω * Real.sqrt (1 - ζ ^ 2)
  let e := Real.exp (-ωζ * Δt)
  let c := Real.cos (α * Δt)
  let s := Real.sin (α * Δt)
  { pos_pos_coef := e * c + e * ωζ * s / α
    pos_vel_coef := e * s / α
    vel_pos_coef := -(e * s * α) - ωζ * (e * ωζ * s / α)
    vel_vel_coef := e * c - e * ωζ * s / α }

/-- Written from the specification's words (spec §4.1, "Over-damped"):
with `z1 = −ωζ − ωb`, `z2 = −ωζ + ωb` where `ωb = ω·sqrt(ζ²−1)`,
`e1 = exp(z1Δt)`, `e2 = exp(z2Δt)`, `k = 1/(z2−z1)`:
`pos_pos = e1·k·z2 − e2·k·z2 + e2`, `pos_vel = −e1·k + e2·k`,
`vel_pos = (e1·k·z1 − e2·k·z2 + e2)·z2`, `vel_vel = −e1·k·z1 + e2·k·z2`. -/
def specOverDamped (Δt ω ζ : ℝ) : Spring :=
  let ωζ := ω * ζ
  let ωb := ω * Real.sqrt (ζ ^ 2 - 1)
  let z1 := -ωζ - ωb
  let z2 := -ωζ + ωb
  let e1 := Real.exp (z1 * Δt)
  let e2 := Real.exp (z2 * Δt)
  let k := 1 / (z2 - z1)
  { pos_pos_coef := e1 * k * z2 - e2 * k * z2 + e2
    pos_vel_coef := -(e1 * k) + e2 * k
    vel_pos_coef := (e1 * k * z1 - e2 * k * z2 + e2) * z2
    vel_vel_coef := -(e1 * k * z1) + e2 * k * z2 }

end

theorem EPSILON_pos : (0 : ℝ) < EPSILON := by norm_num [EPSILON]

theorem EPSILON_lt_one : EPSILON < (1 : ℝ) := by norm_num [EPSILON]

/-- Each coefficient computed by the critically-damped branch equals the
specification's formula. -/
theorem crit_eq_spec (Δt ω : ℝ) :
    calculate_critically_damped Δt ω = specCriticallyDamped Δt ω := by
  simp only [calculate_critically_damped, specCriticallyDamped, Spring.mk.injEq]
  refine ⟨?_, ?_, ?_, ?_⟩ <;> ring_nf

/-- Each coefficient computed by the under-damped branch equals the
specification's formula. -/
theorem under_eq_spec (Δt ω ζ : ℝ) :
    calculate_under_damped Δt ω ζ = specUnderDamped Δt ω ζ := by
  simp only [calculate_under_damped, specUnderDamped, alpha, Spring.mk.injEq]
  rw [show (1 - ζ * ζ : ℝ) = 1 - ζ ^ 2 from by ring]
  refine ⟨?_, ?_, ?_, ?_⟩ <;> ring_nf

/-- Each coefficient computed by the over-damped branch equals the
specification's formula (using that `z2 − z1 = 2·zb`). -/
theorem over_eq_spec (Δt ω ζ : ℝ) :
    calculate_over_damped Δt ω ζ = specOverDamped Δt ω ζ := by
  simp only [calculate_over_damped, specOverDamped, zb, Spring.mk.injEq]
  rw [show (ζ * ζ - 1 : ℝ) = ζ ^ 2 - 1 from by ring]
  refine ⟨?_, ?_, ?_, ?_⟩ <;> ring_nf

/-- With a clamped frequency at least `EPSILON` and damping ratio above
`1 + EPSILON`, `Spring.new` takes the over-damped branch. -/
theorem new_eq_over (Δt ω ζ : ℝ) (hω : EPSILON ≤ ω) (hζ : 1 + EPSILON < ζ) :
    Spring.new Δt ω ζ = calculate_over_damped Δt ω ζ := by
  have hω1 : max 0 ω = ω := max_eq_right (le_trans EPSILON_pos.le hω)
  have hζ1 : max 0 ζ = ζ := max_eq_right (by linarith [EPSILON_pos])
  simp only [Spring.new, hω1, hζ1]
  rw [if_neg (not_lt.mpr hω), if_pos hζ]

/-- With a clamped frequency at least `EPSILON` and damping ratio in
`[0, 1 − EPSILON)`, `Spring.new` takes the under-damped branch. -/
theorem new_eq_under (Δt ω ζ : ℝ) (hω : EPSILON ≤ ω) (h0 : 0 ≤ ζ)
    (h1 : ζ < 1 - EPSILON) :
    Spring.new Δt ω ζ = calculate_under_damped Δt ω ζ := by
  have hω1 : max 0 ω = ω := max_eq_right (le_trans EPSILON_pos.le hω)
  have hζ1 : max 0 ζ = ζ := max_eq_right h0
  have hno : ¬(1 + EPSILON < ζ) := by push_neg; linarith [EPSILON_pos]
  simp only [Spring.new, hω1, hζ1]
  rw [if_neg (not_lt.mpr hω), if_neg hno, if_pos h1]

/-- With a clamped frequency at least `EPSILON` and damping ratio within
`EPSILON` of `1`, `Spring.new` takes the critically-damped branch. -/
theorem new_eq_crit (Δt ω ζ : ℝ) (hω : EPSILON ≤ ω) (hc : |ζ - 1| ≤ EPSILON) :
    Spring.new Δt ω ζ = calculate_critically_damped Δt ω := by
  obtain ⟨hl, hr⟩ := abs_le.mp hc
  have hω1 : max 0 ω = ω := max_eq_right (le_trans EPSILON_pos.le hω)
  have hζ1 : max 0 ζ = ζ := max_eq_right (by linarith [EPSILON_lt_one])
  have hno : ¬(1 + EPSILON < ζ) := not_lt.mpr (by linarith)
  have hnu : ¬(ζ < 1 - EPSILON) := not_lt.mpr (by linarith)
  simp only [Spring.new, hω1, hζ1]
  rw [if_neg (not_lt.mpr hω), if_neg hno, if_neg hnu]

/-- Claim C1: for every time step `Δt` and clamped inputs with angular
frequency `ω ≥ 1e-8` and damping ratio `ζ > 1 + 1e-8`, `Spring.new` computes
the over-damped coefficients exactly as the specification states them (with
`z1 = −ωζ − ωb`, `z2 = −ωζ + ωb`, `ωb = ω·sqrt(ζ²−1)`, `e1 = exp(z1·Δt)`,
`e2 = exp(z2·Δt)`, `k = 1/(z2−z1)`). -/
theorem C1_over_damped_coefficients (Δt ω ζ : ℝ) (hω : EPSILON ≤ ω)
    (hζ : 1 + EPSILON < ζ) :
    Spring.new Δt ω ζ = specOverDamped Δt ω ζ :=
  (new_eq_over Δt ω ζ hω hζ).trans (over_eq_spec Δt ω ζ)

/-- Witness for C1 at `Δt = 1`, `ω = 1`, `ζ = 2`. -/
theorem C1_witness :
    EPSILON ≤ (1 : ℝ) ∧ 1 + EPSILON < (2 : ℝ) ∧
      Spring.new 1 1 2 = specOverDamped 1 1 2 :=
  ⟨by norm_num [EPSILON], by norm_num [EPSILON],
    C1_over_damped_coefficients 1 1 2 (by norm_num [EPSILON])
      (by norm_num [EPSILON])⟩

/-- Claim C2: for every time step `Δt` and clamped inputs with angular
frequency `ω ≥ 1e-8` and damping ratio `0 ≤ ζ < 1 − 1e-8`, `Spring.new`
computes the under-damped coefficients exactly as the specification states
them (with `ωζ = ω·ζ`, `α = ω·sqrt(1−ζ²)`, `e = exp(−ωζ·Δt)`,
`c = cos(α·Δt)`, `s = sin(α·Δt)`). -/
theorem C2_under_damped_coefficients (Δt ω ζ : ℝ) (hω : EPSILON ≤ ω)
    (h0 : 0 ≤ ζ) (h1 : ζ < 1 - EPSILON) :
    Spring.new Δt ω ζ = specUnderDamped Δt ω ζ :=
  (new_eq_under Δt ω ζ hω h0 h1).trans (under_eq_spec Δt ω ζ)

/-- Witness for C2 at `Δt = 1`, `ω = 1`, `ζ = 1/2`. -/
theorem C2_witness :
    EPSILON ≤ (1 : ℝ) ∧ (0 : ℝ) ≤ 1 / 2 ∧ (1 / 2 : ℝ) < 1 - EPSILON ∧
      Spring.new 1 1 (1 / 2) = specUnderDamped 1 1 (1 / 2) :=
  ⟨by norm_num [EPSILON], by norm_num, by norm_num [EPSILON],
    C2_under_damped_coefficients 1 1 (1 / 2) (by norm_num [EPSILON])
      (by norm_num) (by norm_num [EPSILON])⟩

/-- Claim C3: for a clamped angular frequency `ω ≥ 1e-8`, `Spring.new`
selects the regime by comparing the clamped damping ratio with `1 ± EPSILON`:
the over-damped branch when `ζ > 1 + EPSILON`, the under-damped branch when
`ζ < 1 − EPSILON`, and otherwise (`|ζ − 1| ≤ EPSILON`) the critically-damped
branch, whose coefficients are `pos_pos = Δt·ω·e + e`, `pos_vel = Δt·e`,
`vel_pos = −ω·Δt·ω·e`, `vel_vel = −Δt·ω·e + e` with `e = exp(−ω·Δt)`. -/
theorem C3_regime_selection (Δt ω ζo ζu ζc : ℝ) (hω : EPSILON ≤ ω)
    (ho : 1 + EPSILON < ζo) (hu0 : 0 ≤ ζu) (hu1 : ζu < 1 - EPSILON)
    (hc : |ζc - 1| ≤ EPSILON) :
    Spring.new Δt ω ζo = calculate_over_damped Δt ω ζo ∧
    Spring.new Δt ω ζu = calculate_under_damped Δt ω ζu ∧
    Spring.new Δt ω ζc = specCriticallyDamped Δt ω :=
  ⟨new_eq_over Δt ω ζo hω ho, new_eq_under Δt ω ζu hω hu0 hu1,
    (new_eq_crit Δt ω ζc hω hc).trans (crit_eq_spec Δt ω)⟩

/-- Witness for C3 at `Δt = 1`, `ω = 1`, `ζo = 2`, `ζu = 0`, `ζc = 1`. -/
theorem C3_witness :
    EPSILON ≤ (1 : ℝ) ∧ 1 + EPSILON < (2 : ℝ) ∧ (0 : ℝ) ≤ 0 ∧
      (0 : ℝ) < 1 - EPSILON ∧ |(1 : ℝ) - 1| ≤ EPSILON ∧
      (Spring.new 1 1 2 = calculate_over_damped 1 1 2 ∧
        Spring.new 1 1 0 = calculate_under_damped 1 1 0 ∧
        Spring.new 1 1 1 = specCriticallyDamped 1 1) :=
  ⟨by norm_num [EPSILON], by norm_num [EPSILON], le_refl 0,
    by norm_num [EPSILON], by norm_num [EPSILON],
    C3_regime_selection 1 1 2 0 1 (by norm_num [EPSILON])
      (by norm_num [EPSILON]) (by norm_num) (by norm_num [EPSILON])
      (by norm_num [EPSILON])⟩

/-- Claim C4: whenever the clamped angular frequency is below `EPSILON`
(which covers every negative input, floored to zero), `Spring.new` returns
the identity coefficients, and `update` on that spring returns its
`(pos, vel)` inputs unchanged for every input triple. -/
theorem C4_identity_at_zero_frequency (Δt ω ζ pos vel equilibrium_pos : ℝ)
    (h : max 0 ω < EPSILON) :
    Spring.new Δt ω ζ =
      { pos_pos_coef := 1, pos_vel_coef := 0, vel_pos_coef := 0, vel_vel_coef := 1 } ∧
    (Spring.new Δt ω ζ).update pos vel equilibrium_pos =
      (Spring.new Δt ω ζ, pos, vel) := by
  have hid : Spring.new Δt ω ζ =
      { pos_pos_coef := 1, pos_vel_coef := 0, vel_pos_coef := 0, vel_vel_coef := 1 } := by
    simp only [Spring.new]
    rw [if_pos h]
  refine ⟨hid, ?_⟩
  rw [hid]
  simp only [Spring.update, Prod.mk.injEq]
  exact ⟨trivial, by ring, by ring⟩

/-- Witness for C4 at `Δt = 1`, `ω = −5` (a negative input floored to zero),
`ζ = 1/2`, on the triple `(7, 8, 9)`. -/
theorem C4_witness :
    max 0 (-5 : ℝ) < EPSILON ∧
      (Spring.new 1 (-5) (1 / 2) =
        { pos_pos_coef := 1, pos_vel_coef := 0, vel_pos_coef := 0, vel_vel_coef := 1 } ∧
      (Spring.new 1 (-5) (1 / 2)).update 7 8 9 = (Spring.new 1 (-5) (1 / 2), 7, 8)) :=
  ⟨by norm_num [EPSILON],
    C4_identity_at_zero_frequency 1 (-5) (1 / 2) 7 8 9 (by norm_num [EPSILON])⟩

/-- Claim C5: `Spring.update` translates the position into
equilibrium-relative space, applies the 2×2 linear map, and re-adds the
equilibrium position to the new position only; the velocity gets no offset. -/
theorem C5_update_equilibrium_relative (s : Spring) (pos vel equilibrium_pos : ℝ) :
    (s.update pos vel equilibrium_pos).2.1 =
      (pos - equilibrium_pos) * s.pos_pos_coef + vel * s.pos_vel_coef + equilibrium_pos ∧
    (s.update pos vel equilibrium_pos).2.2 =
      (pos - equilibrium_pos) * s.vel_pos_coef + vel * s.vel_vel_coef :=
  ⟨rfl, rfl⟩

/-- Claim C6: `Projectile.update` performs a semi-implicit Euler step: each
position component is incremented by the pre-update velocity component times
`delta_time`, then each velocity component is incremented by the acceleration
component times `delta_time`; acceleration and `delta_time` are untouched and
the resulting position is what the method returns. -/
theorem C6_projectile_semi_implicit_euler (p : Projectile) :
    p.update.1.pos.x = p.pos.x + p.vel.x * p.delta_time ∧
    p.update.1.pos.y = p.pos.y + p.vel.y * p.delta_time ∧
    p.update.1.pos.z = p.pos.z + p.vel.z * p.delta_time ∧
    p.update.1.vel.x = p.vel.x + p.acc.x * p.delta_time ∧
    p.update.1.vel.y = p.vel.y + p.acc.y * p.delta_time ∧
    p.update.1.vel.z = p.vel.z + p.acc.z * p.delta_time ∧
    p.update.1.acc = p.acc ∧
    p.update.1.delta_time = p.delta_time ∧
    p.update.2 = p.update.1.pos :=
  ⟨rfl, rfl, rfl, rfl, rfl, rfl, rfl, rfl, rfl⟩

/-- Claim C7: the divisors of the two dividing branches are nonzero on their
branch domains: `alpha ω ζ = ω·sqrt(1−ζ²) ≠ 0` when `ω ≥ EPSILON` and
`0 ≤ ζ < 1 − EPSILON`, and `2·zb ω ζ = 2·ω·sqrt(ζ²−1) ≠ 0` when
`ω ≥ EPSILON` and `ζ > 1 + EPSILON`. -/
theorem C7_no_division_by_zero (ω ζu ζo : ℝ) (hω : EPSILON ≤ ω)
    (h0 : 0 ≤ ζu) (h1 : ζu < 1 - EPSILON) (h2 : 1 + EPSILON < ζo) :
    alpha ω ζu ≠ 0 ∧ 2 * zb ω ζo ≠ 0 := by
  have hω0 : 0 < ω := lt_of_lt_of_le EPSILON_pos hω
  simp only [alpha, zb]
  constructor
  · refine ne_of_gt (mul_pos hω0 (Real.sqrt_pos.mpr ?_))
    nlinarith [EPSILON_pos]
  · refine ne_of_gt (mul_pos (by norm_num) (mul_pos hω0 (Real.sqrt_pos.mpr ?_)))
    nlinarith [EPSILON_pos]

/-- Witness for C7 at `ω = 1`, `ζu = 1/2`, `ζo = 2`. -/
theorem C7_witness :
    EPSILON ≤ (1 : ℝ) ∧ (0 : ℝ) ≤ 1 / 2 ∧ (1 / 2 : ℝ) < 1 - EPSILON ∧
      1 + EPSILON < (2 : ℝ) ∧ (alpha 1 (1 / 2) ≠ 0 ∧ 2 * zb 1 2 ≠ 0) :=
  ⟨by norm_num [EPSILON], by norm_num, by norm_num [EPSILON],
    by norm_num [EPSILON],
    C7_no_division_by_zero 1 (1 / 2) 2 (by norm_num [EPSILON]) (by norm_num)
      (by norm_num [EPSILON]) (by norm_num [EPSILON])⟩

/-- Claim C8: `Spring.update` leaves all four stored coefficients unchanged,
so a repeated call with identical inputs on the resulting spring produces the
identical output. -/
theorem C8_update_frame (s : Spring) (pos vel equilibrium_pos : ℝ) :
    (s.update pos vel equilibrium_pos).1.pos_pos_coef = s.pos_pos_coef ∧
    (s.update pos vel equilibrium_pos).1.pos_vel_coef = s.pos_vel_coef ∧
    (s.update pos vel equilibrium_pos).1.vel_pos_coef = s.vel_pos_coef ∧
    (s.update pos vel equilibrium_pos).1.vel_vel_coef = s.vel_vel_coef ∧
    ((s.update pos vel equilibrium_pos).1).update pos vel equilibrium_pos =
      s.update pos vel equilibrium_pos :=
  ⟨rfl, rfl, rfl, rfl, rfl⟩

/-- Claim C9 counterexample: at `frames_per_second = 0` the helper does not
produce any duration value — the u128 division by zero fails (a Rust panic,
modelled as `none`). -/
theorem C9_counterexample : (fps 0).isSome = false := rfl

/-- Claim C9 (amended): `fps 0` fails with an integer division by zero (a
panic) instead of silently producing an anomalous duration value. -/
theorem C9_fps_zero_fails : fps 0 = none := rfl

/-- Claim C10 counterexample: `fps 3` is `333333333/10^9`, the truncation of
`1/3` to a whole number of nanoseconds, and not the exact quotient `1/3`. -/
theorem C10_counterexample :
    fps 3 = some (333333333 / 1000000000 : ℚ) ∧
      (333333333 / 1000000000 : ℚ) ≠ 1 / 3 := by
  refine ⟨?_, by norm_num⟩
  norm_num [fps]

/-- Claim C10 (amended): for every positive `n < 2^32`, `fps n` returns
`1/n` truncated to a whole number of nanoseconds, `⌊10^9/n⌋/10^9`, which is
within `1/10^9` below the exact quotient `1/n` (and equals it exactly only
when `n` divides `10^9`). -/
theorem C10_fps_truncation (n : ℕ) (h1 : 0 < n) (h2 : n < 2 ^ 32) :
    fps n = some (((10 ^ 9 / n : ℕ) : ℚ) / 10 ^ 9) ∧
    1 / (n : ℚ) - 1 / 10 ^ 9 < ((10 ^ 9 / n : ℕ) : ℚ) / 10 ^ 9 ∧
    ((10 ^ 9 / n : ℕ) : ℚ) / 10 ^ 9 ≤ 1 / (n : ℚ) := by
  have hmod : n % 2 ^ 32 = n := Nat.mod_eq_of_lt h2
  have hne : n ≠ 0 := Nat.pos_iff_ne_zero.mp h1
  have hdm := Nat.div_add_mod (10 ^ 9) n
  have hq : (n : ℚ) * ((10 ^ 9 / n : ℕ) : ℚ) + ((10 ^ 9 % n : ℕ) : ℚ) = 10 ^ 9 := by
    exact_mod_cast hdm
  have hrlt : ((10 ^ 9 % n : ℕ) : ℚ) < (n : ℚ) := by
    exact_mod_cast Nat.mod_lt _ h1
  have hr0 : (0 : ℚ) ≤ ((10 ^ 9 % n : ℕ) : ℚ) := by positivity
  have hn : (0 : ℚ) < (n : ℚ) := by exact_mod_cast h1
  refine ⟨?_, ?_, ?_⟩
  · simp only [fps, hmod]
    rw [if_neg hne, Option.some.injEq, div_div]
    norm_num
  · rw [sub_lt_iff_lt_add, show ((10 ^ 9 / n : ℕ) : ℚ) / 10 ^ 9 + 1 / 10 ^ 9 =
      (((10 ^ 9 / n : ℕ) : ℚ) + 1) / 10 ^ 9 from by ring,
      div_lt_div_iff₀ hn (by norm_num)]
    generalize hx : ((10 ^ 9 / n : ℕ) : ℚ) = x at hq ⊢
    generalize hrr : ((10 ^ 9 % n : ℕ) : ℚ) = r at hq hrlt
    generalize hy : ((n : ℕ) : ℚ) = y at hq hrlt ⊢
    nlinarith [hq, hrlt]
  · rw [div_le_div_iff₀ (by norm_num) hn]
    generalize hx : ((10 ^ 9 / n : ℕ) : ℚ) = x at hq ⊢
    generalize hrr : ((10 ^ 9 % n : ℕ) : ℚ) = r at hq hr0
    generalize hy : ((n : ℕ) : ℚ) = y at hq ⊢
    nlinarith [hq, hr0]

/-- Witness for C10 (amended) at `n = 60`. -/
theorem C10_witness :
    0 < 60 ∧ (60 : ℕ) < 2 ^ 32 ∧
      (fps 60 = some (((10 ^ 9 / 60 : ℕ) : ℚ) / 10 ^ 9) ∧
        1 / ((60 : ℕ) : ℚ) - 1 / 10 ^ 9 < ((10 ^ 9 / 60 : ℕ) : ℚ) / 10 ^ 9 ∧
        ((10 ^ 9 / 60 : ℕ) : ℚ) / 10 ^ 9 ≤ 1 / ((60 : ℕ) : ℚ)) :=
  ⟨by norm_num, by norm_num,
    C10_fps_truncation 60 (by norm_num) (by norm_num)⟩

end Natura
